import Mathlib

/-!
Verification development for the sx127x_lora LoRa radio driver.

The Rust driver (src/sx127x_lora.rs, src/sx127x_lora/register.rs,
src/radio_mock.rs, src/radio_traits.rs) is shallowly embedded here at the
register level: the register file is a map from register addresses to byte
values, every `write_register` is additionally appended to a write log so
that theorems can speak about which hardware writes an operation issues and
in which order.  SPI framing, chip-select handling and transport failures
are below the granularity any claim needs; the transport is modelled as
infallible, so only the `Transmitting` error is reachable.  Rust `u8`
values are Nats reduced mod 256 at the register boundary; Rust `i64` is
`Int` with truncated division (`Int.tdiv`), matching Rust `/`.  Where the
source can panic (integer overflow in debug profile, division by zero),
the embedding either returns `Option` (division by zero in `set_ldo_flag`)
or uses the release-profile wrapping semantics with an explicit `% 256`
(`set_ocp`), as noted at the definition.
-/

namespace SX127x

/-- Register addresses, from src/sx127x_lora/register.rs (`enum Register`). -/
inductive Register where
  | Fifo | OpMode | FrfMsb | FrfMid | FrfLsb | PaConfig | PaRamp | Ocp | Lna
  | FifoAddrPtr | FifoTxBaseAddr | FifoRxBaseAddr | FifoRxCurrentAddr
  | IrqFlags | RxNbBytes | PktSnrValue | PktRssiValue
  | ModemConfig1 | ModemConfig2 | PreambleMsb | PreambleLsb | PayloadLength
  | ModemConfig3 | FreqErrorMsb | FreqErrorMid | FreqErrorLsb | RssiWideband
  | DetectionOptimize | Invertiq | DetectionThreshold | SyncWord | Invertiq2
  | DioMapping1 | Version | PaDac
  deriving DecidableEq

/-- Embeds `Register::addr` (the discriminant values of `enum Register`). -/
def Register.addr : Register → Nat
  | .Fifo => 0x00 | .OpMode => 0x01 | .FrfMsb => 0x06 | .FrfMid => 0x07
  | .FrfLsb => 0x08 | .PaConfig => 0x09 | .PaRamp => 0x0a | .Ocp => 0x0b
  | .Lna => 0x0c | .FifoAddrPtr => 0x0d | .FifoTxBaseAddr => 0x0e
  | .FifoRxBaseAddr => 0x0f | .FifoRxCurrentAddr => 0x10 | .IrqFlags => 0x12
  | .RxNbBytes => 0x13 | .PktSnrValue => 0x19 | .PktRssiValue => 0x1a
  | .ModemConfig1 => 0x1d | .ModemConfig2 => 0x1e | .PreambleMsb => 0x20
  | .PreambleLsb => 0x21 | .PayloadLength => 0x22 | .ModemConfig3 => 0x26
  | .FreqErrorMsb => 0x28 | .FreqErrorMid => 0x29 | .FreqErrorLsb => 0x2a
  | .RssiWideband => 0x2c | .DetectionOptimize => 0x31 | .Invertiq => 0x33
  | .DetectionThreshold => 0x37 | .SyncWord => 0x39 | .Invertiq2 => 0x3b
  | .DioMapping1 => 0x40 | .Version => 0x42 | .PaDac => 0x4d

/-- IRQ bit masks, from src/sx127x_lora/register.rs (`enum IRQMask`). -/
inductive IRQMask where
  | TxDone | PayloadCrcError | RxDone
  deriving DecidableEq

/-- Embeds `IRQMask::addr` (the discriminant values of `enum IRQMask`). -/
def IRQMask.addr : IRQMask → Nat
  | .TxDone => 0x08
  | .PayloadCrcError => 0x20
  | .RxDone => 0x40

/-- Radio modes, from src/sx127x_lora.rs (`enum RadioMode`). -/
inductive RadioMode where
  | LongRangeMode | Sleep | Stdby | Tx | RxContinuous | RxSingle
  deriving DecidableEq

/-- Embeds `RadioMode::addr` (the discriminant values of `enum RadioMode`). -/
def RadioMode.addr : RadioMode → Nat
  | .LongRangeMode => 0x80
  | .Sleep => 0x00
  | .Stdby => 0x01
  | .Tx => 0x03
  | .RxContinuous => 0x05
  | .RxSingle => 0x06

/-- The reachable errors of `enum Error` in the pure register model (the
transport is infallible here, so the SPI/pin wrappers never occur). -/
inductive Error where
  | Uninformative
  | VersionMismatch (v : Nat)
  | Transmitting
  deriving DecidableEq

/-- Driver state, mirroring `struct LoRa` plus the register file it talks to
and a log of all register writes issued so far (`writes`: pairs of address
and written byte, in issue order). -/
structure LoRaState where
  regs : Nat → Nat
  explicit_header : Bool
  mode : RadioMode
  writes : List (Nat × Nat)

/-- Embeds `LoRa::read_register`: returns the register's byte (u8, hence mod 256). -/
def read_register (s : LoRaState) (r : Register) : Nat :=
  s.regs r.addr % 256

/-- Embeds `LoRa::write_register`: stores the byte and appends it to the write log. -/
def write_register (s : LoRaState) (r : Register) (v : Nat) : LoRaState :=
  { s with
    regs := fun a => if a = r.addr then v % 256 else s.regs a
    writes := s.writes ++ [(r.addr, v % 256)] }

/-- Embeds `LoRa::set_explicit_header_mode`. -/
def set_explicit_header_mode (s : LoRaState) : LoRaState :=
  let reg_modem_config_1 := read_register s .ModemConfig1
  let s := write_register s .ModemConfig1 (reg_modem_config_1 &&& 0xfe)
  { s with explicit_header := true }

/-- Embeds `LoRa::set_implicit_header_mode`. -/
def set_implicit_header_mode (s : LoRaState) : LoRaState :=
  let reg_modem_config_1 := read_register s .ModemConfig1
  let s := write_register s .ModemConfig1 (reg_modem_config_1 &&& 0x01)
  { s with explicit_header := false }

/-- Embeds `LoRa::set_mode`: elides everything when the requested mode equals the
cached one; otherwise re-asserts the header mode, writes OpMode =
LongRangeMode | mode, and updates the cache. -/
def set_mode (s : LoRaState) (mode : RadioMode) : LoRaState :=
  if mode ≠ s.mode then
    let s1 := if s.explicit_header then set_explicit_header_mode s
              else set_implicit_header_mode s
    let s2 := write_register s1 .OpMode (RadioMode.LongRangeMode.addr ||| mode.addr)
    { s2 with mode := mode }
  else s

/-- Embeds `LoRa::transmitting` (trait impl): true iff the Tx bits of OpMode are
set; otherwise the TxDone acknowledgment is guarded by
`(IrqFlags & TxDone) == 1`, exactly as in the source. -/
def transmitting (s : LoRaState) : Bool × LoRaState :=
  if read_register s .OpMode &&& RadioMode.Tx.addr = RadioMode.Tx.addr then
    (true, s)
  else
    if read_register s .IrqFlags &&& IRQMask.TxDone.addr = 1 then
      (false, write_register s .IrqFlags IRQMask.TxDone.addr)
    else
      (false, s)

/-- The `for &byte in payload.iter().take(255)` loop body of
`LoRa::transmit_payload`: one Fifo write per byte. -/
def write_fifo_bytes (s : LoRaState) (bytes : List Nat) : LoRaState :=
  bytes.foldl (fun st b => write_register st .Fifo b) s

/-- Embeds `LoRa::transmit_payload` (trait impl). -/
def transmit_payload (s : LoRaState) (payload : List Nat) :
    Except Error Unit × LoRaState :=
  match transmitting s with
  | (true, s1) => (.error .Transmitting, s1)
  | (false, s1) =>
    let s2 := set_mode s1 .Stdby
    let s3 := write_register s2 .IrqFlags 0
    let s4 := write_register s3 .FifoAddrPtr 0
    let s5 := write_register s4 .PayloadLength 0
    let s6 := write_fifo_bytes s5 (payload.take 255)
    let s7 := write_register s6 .PayloadLength (min payload.length 255)
    let s8 := set_mode s7 .Tx
    (.ok (), s8)

/-- Embeds `LoRa::clear_irq`. -/
def clear_irq (s : LoRaState) : LoRaState :=
  let irq_flags := read_register s .IrqFlags
  write_register s .IrqFlags irq_flags

/-- Embeds `LoRa::check_irq`: packet-ready is bit 6 of IrqFlags. -/
def check_irq (s : LoRaState) : Option Nat × LoRaState :=
  let packet_ready := (read_register s .IrqFlags).testBit 6
  if packet_ready then
    let s1 := clear_irq s
    (some (read_register s1 .RxNbBytes), s1)
  else
    (none, s)

/-- Embeds `LoRa::read_packet` (trait impl).  The `for _ in 0..packet_size` FIFO
drain is a sequence of reads of the Fifo register; reads have no state
effect in this model, so the drained bytes are the Fifo register's value. -/
def read_packet (s : LoRaState) : Option (List Nat) × LoRaState :=
  let s0 := set_mode s .RxContinuous
  match check_irq s0 with
  | (some packet_size, s1) =>
    let fifo_addr := read_register s1 .FifoRxCurrentAddr
    let s2 := write_register s1 .FifoAddrPtr fifo_addr
    let buffer := (List.range packet_size).map (fun _ => read_register s2 .Fifo)
    let s3 := write_register s2 .FifoAddrPtr 0
    (some buffer, s3)
  | (none, s1) => (none, s1)

/-- The polling loop of `LoRa::read_packet_timeout` (trait impl), with
`count` and `timeout_ms` as in the source (i32) and an extra result
component counting the `delay.delay_ms(1)` invocations. -/
def read_packet_timeout_aux (s : LoRaState) (timeout_ms count : Int)
    (delays : Nat) : Option (List Nat) × LoRaState × Nat :=
  match read_packet s with
  | (some p, s1) => (some p, s1, delays)
  | (none, s1) =>
    if count ≥ timeout_ms then (none, s1, delays)
    else read_packet_timeout_aux s1 timeout_ms (count + 1) (delays + 1)
termination_by (timeout_ms - count).toNat
decreasing_by omega

/-- Embeds `LoRa::read_packet_timeout` (trait impl): loop from `count = 0`. -/
def read_packet_timeout (s : LoRaState) (timeout_ms : Int) :
    Option (List Nat) × LoRaState × Nat :=
  read_packet_timeout_aux s timeout_ms 0 0

/-- Embeds `LoRa::set_ocp`.  `ma` is a Rust u8; the arithmetic `ma - 45` and
`ma + 30` is u8 arithmetic, which wraps mod 256 in release builds (debug
builds panic on the overflowing inputs `ma < 45` and `225 < ma ≤ 240`);
the wrap is made explicit with `% 256`. -/
def set_ocp (s : LoRaState) (ma : Nat) : LoRaState :=
  let ocp_trim : Nat :=
    if ma ≤ 120 then (ma + 256 - 45) % 256 / 5
    else if ma ≤ 240 then (ma + 30) % 256 / 10
    else 27
  write_register s .Ocp (0x20 ||| (0x1F &&& ocp_trim))

/-- Embeds `LoRa::get_spreading_factor`. -/
def get_spreading_factor (s : LoRaState) : Nat :=
  read_register s .ModemConfig2 >>> 4

/-- The decode table of `LoRa::get_signal_bandwidth`. -/
def bandwidth_value (bw : Nat) : Int :=
  match bw with
  | 0 => 7800
  | 1 => 10400
  | 2 => 15600
  | 3 => 20800
  | 4 => 31250
  | 5 => 41700
  | 6 => 62500
  | 7 => 125000
  | 8 => 250000
  | 9 => 500000
  | _ => -1

/-- Embeds `LoRa::get_signal_bandwidth`. -/
def get_signal_bandwidth (s : LoRaState) : Int :=
  bandwidth_value (read_register s .ModemConfig1 >>> 4)

/-- Embeds `u8::set_bit` of the bit_field crate, specialised to u8 values:
set or clear bit `i`. -/
def set_bit (v i : Nat) (b : Bool) : Nat :=
  if b then v ||| (1 <<< i) else v &&& (0xff ^^^ (1 <<< i))

/-- Embeds `LoRa::set_ldo_flag`.  `1000 / (sw / (1 << sf))` is i64 arithmetic with
truncated division; when the inner quotient is 0 the Rust division panics,
modelled as `none`. -/
def set_ldo_flag (s : LoRaState) : Option LoRaState :=
  let sw := get_signal_bandwidth s
  let divisor := Int.tdiv sw ((2 : Int) ^ get_spreading_factor s)
  if divisor = 0 then none
  else
    let symbol_duration := Int.tdiv 1000 divisor
    let ldo_on := symbol_duration > 16
    let config_3 := read_register s .ModemConfig3
    some (write_register s .ModemConfig3 (set_bit config_3 3 ldo_on))

/-- Embeds `LoRa::set_spreading_factor`.  `sf.clamp(6, 12)` on u8. -/
def set_spreading_factor (s : LoRaState) (sf : Nat) : Option LoRaState :=
  let sf := min 12 (max 6 sf)
  let s :=
    if sf = 6 then
      write_register (write_register s .DetectionOptimize 0xc5)
        .DetectionThreshold 0x0c
    else
      write_register (write_register s .DetectionOptimize 0xc3)
        .DetectionThreshold 0x0a
  let modem_config_2 := read_register s .ModemConfig2
  let s := write_register s .ModemConfig2
    ((modem_config_2 &&& 0x0f) ||| ((sf <<< 4) &&& 0xf0))
  set_ldo_flag s

/-- The encode table (`match sbw`) of `LoRa::set_signal_bandwidth`. -/
def bandwidth_code (sbw : Int) : Nat :=
  if sbw = 7800 then 0
  else if sbw = 10400 then 1
  else if sbw = 15600 then 2
  else if sbw = 20800 then 3
  else if sbw = 31250 then 4
  else if sbw = 41700 then 5
  else if sbw = 62500 then 6
  else if sbw = 125000 then 7
  else if sbw = 250000 then 8
  else 9

/-- Embeds `LoRa::set_signal_bandwidth`. -/
def set_signal_bandwidth (s : LoRaState) (sbw : Int) : Option LoRaState :=
  let bw := bandwidth_code sbw
  let modem_config_1 := read_register s .ModemConfig1
  let s := write_register s .ModemConfig1
    ((modem_config_1 &&& 0x0f) ||| (bw <<< 4))
  set_ldo_flag s

/-- The ModemConfig1 byte a mode transition re-writes, as a function of the
cached header flag (cf. `set_explicit_header_mode` / `set_implicit_header_mode`). -/
def header_write_value (s : LoRaState) : Nat :=
  if s.explicit_header then read_register s .ModemConfig1 &&& 0xfe
  else read_register s .ModemConfig1 &&& 0x01

/-!
The simulated radio (src/radio_mock.rs).  `MockLora::new(n)` builds one
unbounded channel per endpoint; endpoint `i` holds the receiver of channel
`i` and a sender for every channel `j ≠ i`.  The bus is embedded as the
joint state of the `n` channels: `queues j` is the FIFO backlog of
endpoint `j`'s inbound channel, oldest first. -/

/-- The joint state of a `MockLora::new(num)` bus. -/
structure MockBus where
  num : Nat
  queues : Nat → List (List Nat)

/-- Embeds `MockLora::transmit_payload` at endpoint `sender`: push the payload,
capped by `take(255)`, onto every other endpoint's channel. -/
def MockBus.transmit_payload (bus : MockBus) (sender : Nat)
    (payload : List Nat) : MockBus :=
  { bus with
    queues := fun j =>
      if j < bus.num ∧ j ≠ sender then bus.queues j ++ [payload.take 255]
      else bus.queues j }

/-- Embeds `MockLora::read_packet` at endpoint `receiver`: `try_recv`, i.e. a
non-blocking pop of the endpoint's own channel (`Empty` is `Ok(None)`;
`Disconnected` cannot occur while the peer endpoints hold their senders,
so it is not modelled). -/
def MockBus.read_packet (bus : MockBus) (receiver : Nat) :
    Option (List Nat) × MockBus :=
  match bus.queues receiver with
  | [] => (none, bus)
  | p :: rest =>
    (some p,
     { bus with queues := fun j => if j = receiver then rest else bus.queues j })

/-- The polling loop of `MockLora::read_packet_timeout`, with a counter of
`delay.delay_ms(1)` invocations, textually the same loop as the driver's. -/
def MockBus.read_packet_timeout_aux (bus : MockBus) (receiver : Nat)
    (timeout_ms count : Int) (delays : Nat) :
    Option (List Nat) × MockBus × Nat :=
  match bus.read_packet receiver with
  | (some p, bus1) => (some p, bus1, delays)
  | (none, bus1) =>
    if count ≥ timeout_ms then (none, bus1, delays)
    else bus1.read_packet_timeout_aux receiver timeout_ms (count + 1) (delays + 1)
termination_by (timeout_ms - count).toNat
decreasing_by omega

/-- Embeds `MockLora::read_packet_timeout`: loop from `count = 0`. -/
def MockBus.read_packet_timeout (bus : MockBus) (receiver : Nat)
    (timeout_ms : Int) : Option (List Nat) × MockBus × Nat :=
  bus.read_packet_timeout_aux receiver timeout_ms 0 0

/-! ### Basic facts about the register model -/

theorem read_register_lt (s : LoRaState) (r : Register) : read_register s r < 256 :=
  Nat.mod_lt _ (by norm_num)

theorem and_lt_256 {x : Nat} (m : Nat) (h : x < 256) : x &&& m < 256 :=
  lt_of_le_of_lt Nat.and_le_left h

theorem and_mod256 (s : LoRaState) (r : Register) (m : Nat) :
    (read_register s r &&& m) % 256 = read_register s r &&& m :=
  Nat.mod_eq_of_lt (and_lt_256 m (read_register_lt s r))

theorem header_write_value_lt (s : LoRaState) : header_write_value s < 256 := by
  unfold header_write_value
  split <;> exact and_lt_256 _ (read_register_lt s .ModemConfig1)

theorem opmode_or_lt (m : RadioMode) : 0x80 ||| m.addr < 256 := by
  cases m <;> decide

/-- A bitmask fact ruling out the TxDone acknowledgment branch of
`transmitting`: `x & 0x08` is 0 or 8, never 1. -/
theorem and_eight_ne_one (x : Nat) : x &&& 8 ≠ 1 := by
  intro h
  have h0 : (x &&& 8).testBit 0 = (1 : Nat).testBit 0 := by rw [h]
  rw [Nat.testBit_and] at h0
  simp at h0

/-- The function `transmitting` is a pure query in the compiled code: the acknowledgment
guard `(IrqFlags & 0x08) == 1` is unsatisfiable, so no branch writes. -/
theorem transmitting_eq (s : LoRaState) :
    transmitting s = (decide (read_register s .OpMode &&& 3 = 3), s) := by
  have hne := and_eight_ne_one (read_register s .IrqFlags)
  by_cases h : read_register s .OpMode &&& 3 = 3
  · simp [transmitting, RadioMode.addr, h]
  · simp [transmitting, RadioMode.addr, IRQMask.addr, h, hne]

theorem transmitting_snd (s : LoRaState) : (transmitting s).2 = s := by
  rw [transmitting_eq]

/-! ### Facts about `set_mode` -/

theorem set_mode_self (s : LoRaState) (m : RadioMode) (h : m = s.mode) :
    set_mode s m = s := by
  simp [set_mode, h]

theorem set_mode_ne_writes (s : LoRaState) (m : RadioMode) (h : m ≠ s.mode) :
    (set_mode s m).writes =
      s.writes ++ [(Register.ModemConfig1.addr, header_write_value s),
                   (Register.OpMode.addr, 0x80 ||| m.addr)] := by
  have hlong : RadioMode.LongRangeMode.addr = 0x80 := rfl
  by_cases he : s.explicit_header <;>
    simp [set_mode, h, he, set_explicit_header_mode, set_implicit_header_mode,
      write_register, header_write_value, hlong,
      Nat.mod_eq_of_lt (opmode_or_lt m), and_mod256 s .ModemConfig1 0xfe,
      and_mod256 s .ModemConfig1 0x01, Nat.and_one_is_mod,
      Nat.mod_mod_of_dvd _ (by norm_num : (2:Nat) ∣ 256)] <;>
    omega

theorem set_mode_mode (s : LoRaState) (m : RadioMode) :
    (set_mode s m).mode = m := by
  by_cases h : m = s.mode
  · rw [set_mode_self s m h, h]
  · by_cases he : s.explicit_header <;>
      simp [set_mode, h, he, set_explicit_header_mode, set_implicit_header_mode,
        write_register]

theorem set_mode_header (s : LoRaState) (m : RadioMode) :
    (set_mode s m).explicit_header = s.explicit_header := by
  by_cases h : m = s.mode
  · rw [set_mode_self s m h]
  · by_cases he : s.explicit_header <;>
      simp [set_mode, h, he, set_explicit_header_mode, set_implicit_header_mode,
        write_register]

theorem set_mode_regs_preserve (s : LoRaState) (m : RadioMode) (a : Nat)
    (h1 : a ≠ 0x01) (h2 : a ≠ 0x1d) :
    (set_mode s m).regs a = s.regs a := by
  by_cases h : m = s.mode
  · rw [set_mode_self s m h]
  · by_cases he : s.explicit_header <;>
      simp [set_mode, h, he, set_explicit_header_mode, set_implicit_header_mode,
        write_register, Register.addr, h1, h2]

theorem read_set_mode_preserve (s : LoRaState) (m : RadioMode) (r : Register)
    (h1 : r.addr ≠ 0x01) (h2 : r.addr ≠ 0x1d) :
    read_register (set_mode s m) r = read_register s r := by
  unfold read_register
  rw [set_mode_regs_preserve s m r.addr h1 h2]

theorem read_set_mode_mc1 (s : LoRaState) (m : RadioMode) (h : m ≠ s.mode) :
    read_register (set_mode s m) .ModemConfig1 = header_write_value s := by
  by_cases he : s.explicit_header <;>
    simp [set_mode, h, he, set_explicit_header_mode, set_implicit_header_mode,
      write_register, read_register, header_write_value, Register.addr,
      Nat.and_one_is_mod, Nat.mod_mod_of_dvd _ (by norm_num : (2:Nat) ∣ 256),
      Nat.mod_eq_of_lt (and_lt_256 0xfe (Nat.mod_lt (s.regs 0x1d) (by norm_num : 0 < 256)))] <;>
    omega

/-! ### Component lemmas for the write pipeline -/

@[simp] theorem write_register_writes (s : LoRaState) (r : Register) (v : Nat) :
    (write_register s r v).writes = s.writes ++ [(r.addr, v % 256)] := rfl

@[simp] theorem write_register_mode (s : LoRaState) (r : Register) (v : Nat) :
    (write_register s r v).mode = s.mode := rfl

@[simp] theorem write_register_header (s : LoRaState) (r : Register) (v : Nat) :
    (write_register s r v).explicit_header = s.explicit_header := rfl

theorem read_write_register_ne (s : LoRaState) (r : Register) (v : Nat)
    (r' : Register) (h : r'.addr ≠ r.addr) :
    read_register (write_register s r v) r' = read_register s r' := by
  simp [read_register, write_register, h]

theorem read_write_register_self (s : LoRaState) (r : Register) (v : Nat) :
    read_register (write_register s r v) r = v % 256 := by
  simp [read_register, write_register]

@[simp] theorem write_fifo_bytes_writes (l : List Nat) (s : LoRaState) :
    (write_fifo_bytes s l).writes
      = s.writes ++ l.map (fun b => (Register.Fifo.addr, b % 256)) := by
  induction l generalizing s with
  | nil => simp [write_fifo_bytes]
  | cons b t ih =>
    show (write_fifo_bytes (write_register s .Fifo b) t).writes = _
    rw [ih]
    simp

@[simp] theorem write_fifo_bytes_mode (l : List Nat) (s : LoRaState) :
    (write_fifo_bytes s l).mode = s.mode := by
  induction l generalizing s with
  | nil => rfl
  | cons b t ih => exact ih (write_register s .Fifo b)

@[simp] theorem write_fifo_bytes_header (l : List Nat) (s : LoRaState) :
    (write_fifo_bytes s l).explicit_header = s.explicit_header := by
  induction l generalizing s with
  | nil => rfl
  | cons b t ih => exact ih (write_register s .Fifo b)

theorem read_write_fifo_bytes_ne (l : List Nat) (s : LoRaState) (r : Register)
    (h : r.addr ≠ Register.Fifo.addr) :
    read_register (write_fifo_bytes s l) r = read_register s r := by
  induction l generalizing s with
  | nil => rfl
  | cons b t ih =>
    show read_register (write_fifo_bytes (write_register s .Fifo b) t) r = _
    rw [ih, read_write_register_ne _ _ _ _ h]

/-! ### Claims C1, C3, C4, C10 -/

/-- A register state with the radio out of Tx mode (OpMode = 0x81) and the
TxDone IRQ bit pending (IrqFlags = 0x08). -/
def c1State : LoRaState :=
  { regs := fun a => if a = 0x01 then 0x81 else if a = 0x12 then 0x08 else 0
    explicit_header := true
    mode := .Stdby
    writes := [] }

/-- C1: the claim says `transmitting()` reports true iff the Tx bits of
OpMode are set (which holds), and that otherwise a pending TxDone bit is
acknowledged by writing the mask back to IrqFlags.  The code guards that
acknowledgment with `(IrqFlags & 0x08) == 1`, which is unsatisfiable since
the mask is 0x08, so the acknowledgment never happens: at a state with
OpMode = 0x81 and IrqFlags = 0x08 (TxDone set), `transmitting` returns
false and leaves the state untouched — no write is issued and the TxDone
bit stays pending. -/
theorem c1_transmitting_never_acks_txdone :
    transmitting c1State = (false, c1State) ∧
    read_register c1State .IrqFlags &&& IRQMask.TxDone.addr = IRQMask.TxDone.addr ∧
    (transmitting c1State).2.writes = [] :=
  ⟨rfl, rfl, rfl⟩

/-- C3: if `transmitting()` reports true, `transmit_payload` fails with the
`Transmitting` (busy) error and the driver state — register file, caches
and write log — is exactly the state left by the `transmitting()` check
itself (which in fact wrote nothing). -/
theorem c3_busy_transmit_rejected (s : LoRaState) (p : List Nat)
    (h : (transmitting s).1 = true) :
    transmit_payload s p = (.error .Transmitting, s) ∧
    (transmit_payload s p).2.writes = s.writes := by
  have hb : transmitting s = (true, s) := by
    rw [transmitting_eq] at h ⊢
    simp only [Prod.mk.injEq]
    exact ⟨h, trivial⟩
  refine ⟨?_, ?_⟩ <;> simp [transmit_payload, hb]

/-- A state currently in Tx mode: OpMode = 0x83. -/
def c3State : LoRaState :=
  { regs := fun a => if a = 0x01 then 0x83 else 0
    explicit_header := true
    mode := .Tx
    writes := [] }

theorem c3_witness :
    transmit_payload c3State [1, 2] = (.error .Transmitting, c3State) ∧
    (transmit_payload c3State [1, 2]).2.writes = c3State.writes :=
  c3_busy_transmit_rejected c3State [1, 2] rfl

/-- C4: `set_mode` is a no-op when the requested mode equals the cached
mode; otherwise it issues exactly two writes, in order: ModemConfig1
re-written according to the cached header flag, then OpMode =
0x80 | code(m); it then caches m (and leaves the header flag cache alone).
The mode codes are Sleep=0x00, Standby=0x01, Tx=0x03, RxContinuous=0x05,
RxSingle=0x06.  Setting the same mode twice is idempotent, so it issues at
most one OpMode write. -/
theorem c4_set_mode_contract (s : LoRaState) (m : RadioMode) :
    (m = s.mode → set_mode s m = s) ∧
    (m ≠ s.mode →
      (set_mode s m).writes =
        s.writes ++ [(Register.ModemConfig1.addr, header_write_value s),
                     (Register.OpMode.addr, 0x80 ||| m.addr)] ∧
      (set_mode s m).mode = m ∧
      (set_mode s m).explicit_header = s.explicit_header) ∧
    (RadioMode.Sleep.addr = 0x00 ∧ RadioMode.Stdby.addr = 0x01 ∧
     RadioMode.Tx.addr = 0x03 ∧ RadioMode.RxContinuous.addr = 0x05 ∧
     RadioMode.RxSingle.addr = 0x06) ∧
    set_mode (set_mode s m) m = set_mode s m := by
  refine ⟨set_mode_self s m, ?_, by decide, ?_⟩
  · intro h
    exact ⟨set_mode_ne_writes s m h, set_mode_mode s m, set_mode_header s m⟩
  · exact set_mode_self (set_mode s m) m (set_mode_mode s m).symm

/-- A state cached in Standby with explicit header and ModemConfig1 = 0x72. -/
def c4State : LoRaState :=
  { regs := fun a => if a = 0x1d then 0x72 else 0
    explicit_header := true
    mode := .Stdby
    writes := [] }

theorem c4_witness :
    set_mode c4State .Stdby = c4State ∧
    (set_mode c4State .Tx).writes =
      c4State.writes ++ [(Register.ModemConfig1.addr, header_write_value c4State),
                         (Register.OpMode.addr, 0x80 ||| RadioMode.Tx.addr)] ∧
    (set_mode c4State .Tx).mode = .Tx ∧
    (set_mode c4State .Tx).explicit_header = c4State.explicit_header ∧
    set_mode (set_mode c4State .Tx) .Tx = set_mode c4State .Tx :=
  ⟨(c4_set_mode_contract c4State .Stdby).1 rfl,
   ((c4_set_mode_contract c4State .Tx).2.1 (by decide)).1,
   ((c4_set_mode_contract c4State .Tx).2.1 (by decide)).2.1,
   ((c4_set_mode_contract c4State .Tx).2.1 (by decide)).2.2,
   (c4_set_mode_contract c4State .Tx).2.2.2⟩

/-- C10: on an actual mode transition the ModemConfig1 re-write depends on
the cached header flag: with the explicit flag it writes old & 0xfe, which
preserves bits 1–7 (the bandwidth and coding-rate fields) and clears the
header bit; with the implicit flag it writes old & 0x01, which zeroes
bits 1–7 — destroying the bandwidth and coding-rate fields — and merely
preserves bit 0, so the implicit-header bit stays unset if it was already
clear. -/
theorem c10_implicit_header_mc1_frame_effect (s : LoRaState) (m : RadioMode)
    (hm : m ≠ s.mode) :
    (s.explicit_header = true →
      read_register (set_mode s m) .ModemConfig1
          = read_register s .ModemConfig1 &&& 0xfe ∧
      (∀ i, 1 ≤ i → i ≤ 7 →
        (read_register (set_mode s m) .ModemConfig1).testBit i
            = (read_register s .ModemConfig1).testBit i) ∧
      (read_register (set_mode s m) .ModemConfig1).testBit 0 = false) ∧
    (s.explicit_header = false →
      read_register (set_mode s m) .ModemConfig1
          = read_register s .ModemConfig1 &&& 0x01 ∧
      (∀ i, 1 ≤ i →
        (read_register (set_mode s m) .ModemConfig1).testBit i = false) ∧
      (read_register (set_mode s m) .ModemConfig1).testBit 0
          = (read_register s .ModemConfig1).testBit 0) := by
  have hmc1 := read_set_mode_mc1 s m hm
  constructor
  · intro he
    have hv : read_register (set_mode s m) .ModemConfig1
        = read_register s .ModemConfig1 &&& 0xfe := by
      rw [hmc1]; simp [header_write_value, he]
    have h254 : ∀ i < 8, 1 ≤ i → (0xfe : Nat).testBit i = true := by decide
    refine ⟨hv, ?_, ?_⟩
    · intro i h1 h7
      rw [hv, Nat.testBit_and, h254 i (by omega) h1, Bool.and_true]
    · rw [hv, Nat.testBit_and,
        show (0xfe : Nat).testBit 0 = false from by decide, Bool.and_false]
  · intro he
    have hv : read_register (set_mode s m) .ModemConfig1
        = read_register s .ModemConfig1 &&& 0x01 := by
      rw [hmc1]; simp [header_write_value, he]
    refine ⟨hv, ?_, ?_⟩
    · intro i h1
      have hone : (1 : Nat).testBit i = false :=
        Nat.testBit_eq_false_of_lt (Nat.one_lt_two_pow (by omega))
      rw [hv, Nat.testBit_and, hone, Bool.and_false]
    · rw [hv, Nat.testBit_and,
        show (0x01 : Nat).testBit 0 = true from by decide, Bool.and_true]

/-- A state cached in implicit-header mode with ModemConfig1 = 0x72
(bandwidth code 7, coding rate 4/5, explicit-header bit clear). -/
def c10State : LoRaState :=
  { regs := fun a => if a = 0x1d then 0x72 else 0
    explicit_header := false
    mode := .Stdby
    writes := [] }

theorem c10_witness :
    read_register (set_mode c10State .Tx) .ModemConfig1
        = read_register c10State .ModemConfig1 &&& 0x01 ∧
    (read_register (set_mode c10State .Tx) .ModemConfig1).testBit 5 = false ∧
    (read_register (set_mode c10State .Tx) .ModemConfig1).testBit 0
        = (read_register c10State .ModemConfig1).testBit 0 :=
  ⟨((c10_implicit_header_mc1_frame_effect c10State .Tx (by decide)).2 rfl).1,
   ((c10_implicit_header_mc1_frame_effect c10State .Tx (by decide)).2 rfl).2.1 5
     (by omega),
   ((c10_implicit_header_mc1_frame_effect c10State .Tx (by decide)).2 rfl).2.2⟩

/-- C2: when `transmitting()` reports false, `transmit_payload` succeeds
and its register writes are, in order: the Standby transition (elided when
the driver is already cached in Standby), IrqFlags := 0, FifoAddrPtr := 0,
PayloadLength := 0, one Fifo write per byte of the first min(len, 255)
payload bytes, PayloadLength := min(len, 255), and the Tx transition; an
over-long payload is truncated to its first 255 bytes, not rejected. -/
theorem c2_transmit_payload_sequence (s : LoRaState) (p : List Nat)
    (hp : ∀ b ∈ p, b < 256)
    (hfree : (transmitting s).1 = false) :
    (transmit_payload s p).1 = Except.ok () ∧
    (transmit_payload s p).2.writes =
      s.writes
      ++ (if s.mode = RadioMode.Stdby then []
          else [(Register.ModemConfig1.addr, header_write_value s),
                (Register.OpMode.addr, 0x81)])
      ++ [(Register.IrqFlags.addr, 0), (Register.FifoAddrPtr.addr, 0),
          (Register.PayloadLength.addr, 0)]
      ++ (p.take 255).map (fun b => (Register.Fifo.addr, b))
      ++ [(Register.PayloadLength.addr, min p.length 255),
          (Register.ModemConfig1.addr, header_write_value s),
          (Register.OpMode.addr, 0x83)] := by
  have ht : transmitting s = (false, s) := by
    rw [transmitting_eq] at hfree ⊢
    simp only [Prod.mk.injEq]
    exact ⟨hfree, trivial⟩
  have hres : (transmit_payload s p).2 =
      set_mode (write_register (write_fifo_bytes (write_register (write_register
        (write_register (set_mode s .Stdby) .IrqFlags 0) .FifoAddrPtr 0)
        .PayloadLength 0) (p.take 255)) .PayloadLength (min p.length 255)) .Tx := by
    simp [transmit_payload, ht]
  refine ⟨by simp [transmit_payload, ht], ?_⟩
  rw [hres]
  -- the state fed into the Tx transition
  set X := write_register (write_fifo_bytes (write_register (write_register
    (write_register (set_mode s .Stdby) .IrqFlags 0) .FifoAddrPtr 0)
    .PayloadLength 0) (p.take 255)) .PayloadLength (min p.length 255) with hX
  have hXmode : X.mode = RadioMode.Stdby := by
    rw [hX]; simp [set_mode_mode]
  have hXheader : X.explicit_header = s.explicit_header := by
    rw [hX]; simp [set_mode_header]
  have hXmc1 : read_register X .ModemConfig1 =
      (if s.mode = RadioMode.Stdby then read_register s .ModemConfig1
       else header_write_value s) := by
    rw [hX]
    rw [read_write_register_ne _ _ _ _ (by decide),
      read_write_fifo_bytes_ne _ _ _ (by decide),
      read_write_register_ne _ _ _ _ (by decide),
      read_write_register_ne _ _ _ _ (by decide),
      read_write_register_ne _ _ _ _ (by decide)]
    by_cases hm : s.mode = RadioMode.Stdby
    · rw [if_pos hm, set_mode_self s .Stdby hm.symm]
    · rw [if_neg hm, read_set_mode_mc1 s .Stdby (fun he => hm he.symm)]
  have hXhdr : header_write_value X = header_write_value s := by
    unfold header_write_value
    rw [hXheader, hXmc1]
    by_cases hm : s.mode = RadioMode.Stdby
    · rw [if_pos hm]
    · rw [if_neg hm]
      unfold header_write_value
      by_cases he : s.explicit_header <;>
        simp [he, Nat.and_assoc, Nat.and_one_is_mod,
          Nat.mod_mod_of_dvd _ (by norm_num : (2:Nat) ∣ 2)]
  have hTx : (set_mode X .Tx).writes =
      X.writes ++ [(Register.ModemConfig1.addr, header_write_value X),
                   (Register.OpMode.addr, 0x80 ||| RadioMode.Tx.addr)] :=
    set_mode_ne_writes X .Tx (by rw [hXmode]; decide)
  rw [hTx, hXhdr, show (0x80 ||| RadioMode.Tx.addr : Nat) = 0x83 from by decide]
  have hw2 : (set_mode s .Stdby).writes =
      s.writes ++ (if s.mode = RadioMode.Stdby then []
        else [(Register.ModemConfig1.addr, header_write_value s),
              (Register.OpMode.addr, 0x81)]) := by
    by_cases hm : s.mode = RadioMode.Stdby
    · rw [if_pos hm, set_mode_self s .Stdby hm.symm, List.append_nil]
    · rw [if_neg hm, set_mode_ne_writes s .Stdby (fun he => hm he.symm),
        show (0x80 ||| RadioMode.Stdby.addr : Nat) = 0x81 from by decide]
  have hmap : (p.take 255).map (fun b => (Register.Fifo.addr, b % 256))
      = (p.take 255).map (fun b => (Register.Fifo.addr, b)) := by
    apply List.map_congr_left
    intro b hb
    have hblt : b < 256 := hp b (List.mem_of_mem_take hb)
    simp [Nat.mod_eq_of_lt hblt]
  have hmin : (min p.length 255) % 256 = min p.length 255 :=
    Nat.mod_eq_of_lt (by omega)
  rw [hX]
  simp only [write_register_writes, write_fifo_bytes_writes, hw2, hmap, hmin]
  simp [List.append_assoc]

/-- A state cached in Sleep mode with everything else zeroed. -/
def c2State : LoRaState :=
  { regs := fun a => if a = 0x1d then 0x72 else 0
    explicit_header := true
    mode := .Sleep
    writes := [] }

theorem c2_witness :
    (transmit_payload c2State [1, 2, 3]).1 = Except.ok () ∧
    (transmit_payload c2State [1, 2, 3]).2.writes =
      c2State.writes
      ++ (if c2State.mode = RadioMode.Stdby then []
          else [(Register.ModemConfig1.addr, header_write_value c2State),
                (Register.OpMode.addr, 0x81)])
      ++ [(Register.IrqFlags.addr, 0), (Register.FifoAddrPtr.addr, 0),
          (Register.PayloadLength.addr, 0)]
      ++ ([1, 2, 3].take 255).map (fun b => (Register.Fifo.addr, b))
      ++ [(Register.PayloadLength.addr, min (List.length [1, 2, 3]) 255),
          (Register.ModemConfig1.addr, header_write_value c2State),
          (Register.OpMode.addr, 0x83)] :=
  c2_transmit_payload_sequence c2State [1, 2, 3] (by decide) rfl

/-! ### Facts about `set_ldo_flag` and the bandwidth tables -/

/-- When `set_ldo_flag` does not panic, it leaves ModemConfig1 and
ModemConfig2 alone and sets bit 3 of ModemConfig3 to exactly the
low-data-rate-optimization condition computed from the state it read. -/
theorem set_ldo_flag_some (t t' : LoRaState) (h : set_ldo_flag t = some t') :
    read_register t' .ModemConfig1 = read_register t .ModemConfig1 ∧
    read_register t' .ModemConfig2 = read_register t .ModemConfig2 ∧
    ((read_register t' .ModemConfig3).testBit 3 = true ↔
      Int.tdiv 1000
        (Int.tdiv (get_signal_bandwidth t) (2 ^ get_spreading_factor t)) > 16) := by
  simp only [set_ldo_flag] at h
  by_cases hz :
      Int.tdiv (get_signal_bandwidth t) ((2 : Int) ^ get_spreading_factor t) = 0
  · rw [if_pos hz] at h
    exact absurd h (by simp)
  · rw [if_neg hz] at h
    have ht' := (Option.some_inj.mp h)
    subst ht'
    have hc : read_register t .ModemConfig3 < 256 := read_register_lt t .ModemConfig3
    refine ⟨read_write_register_ne _ _ _ _ (by decide),
            read_write_register_ne _ _ _ _ (by decide), ?_⟩
    rw [read_write_register_self]
    by_cases hφ :
        Int.tdiv 1000
          (Int.tdiv (get_signal_bandwidth t) ((2 : Int) ^ get_spreading_factor t)) > 16
    · have hv : set_bit (read_register t .ModemConfig3) 3 true
          = read_register t .ModemConfig3 ||| 8 := by
        simp [set_bit]
      have hlt : read_register t .ModemConfig3 ||| 8 < 256 :=
        Nat.or_lt_two_pow (x := read_register t .ModemConfig3) (n := 8) hc (by norm_num)
      rw [decide_eq_true hφ, hv, Nat.mod_eq_of_lt hlt, Nat.testBit_or,
        show (8 : Nat).testBit 3 = true from by decide, Bool.or_true]
      simp [hφ]
    · have hv : set_bit (read_register t .ModemConfig3) 3 false
          = read_register t .ModemConfig3 &&& 0xf7 := by
        simp [set_bit]
      have hlt : read_register t .ModemConfig3 &&& 0xf7 < 256 := and_lt_256 _ hc
      rw [decide_eq_false hφ, hv, Nat.mod_eq_of_lt hlt, Nat.testBit_and,
        show (0xf7 : Nat).testBit 3 = false from by decide, Bool.and_false]
      simp [hφ]

/-- C5: after a successful `set_spreading_factor` or
`set_signal_bandwidth`, bit 3 (LDO) of ModemConfig3 is 1 iff
1000 / (bandwidth / 2^sf) > 16, with the bandwidth and spreading factor
decoded from the final ModemConfig1 / ModemConfig2; both setters end with
this recomputation. -/
theorem c5_ldo_invariant (s : LoRaState) (sf : Nat) (sbw : Int)
    (s1 s2 : LoRaState) :
    (set_spreading_factor s sf = some s1 →
      ((read_register s1 .ModemConfig3).testBit 3 = true ↔
        Int.tdiv 1000
          (Int.tdiv (get_signal_bandwidth s1) (2 ^ get_spreading_factor s1)) > 16)) ∧
    (set_signal_bandwidth s sbw = some s2 →
      ((read_register s2 .ModemConfig3).testBit 3 = true ↔
        Int.tdiv 1000
          (Int.tdiv (get_signal_bandwidth s2) (2 ^ get_spreading_factor s2)) > 16)) := by
  constructor
  · intro h
    simp only [set_spreading_factor] at h
    obtain ⟨hmc1, hmc2, hbit⟩ := set_ldo_flag_some _ _ h
    rw [hbit]
    unfold get_signal_bandwidth get_spreading_factor
    rw [hmc1, hmc2]
  · intro h
    simp only [set_signal_bandwidth] at h
    obtain ⟨hmc1, hmc2, hbit⟩ := set_ldo_flag_some _ _ h
    rw [hbit]
    unfold get_signal_bandwidth get_spreading_factor
    rw [hmc1, hmc2]

theorem bandwidth_code_le_nine (sbw : Int) : bandwidth_code sbw ≤ 9 := by
  unfold bandwidth_code
  split_ifs <;> omega

/-- A configuration state: ModemConfig1 = 0x72 (125 kHz, 4/5),
ModemConfig2 = 0x74 (SF7). -/
def c5State : LoRaState :=
  { regs := fun a => if a = 0x1d then 0x72 else if a = 0x1e then 0x74 else 0
    explicit_header := true
    mode := .Stdby
    writes := [] }

/-- The state produced by `set_spreading_factor c5State 7`. -/
def c5Out1 : LoRaState := (set_spreading_factor c5State 7).getD c5State

/-- The state produced by `set_signal_bandwidth c5State 250000`. -/
def c5Out2 : LoRaState := (set_signal_bandwidth c5State 250000).getD c5State

theorem c5_witness :
    set_spreading_factor c5State 7 = some c5Out1 ∧
    set_signal_bandwidth c5State 250000 = some c5Out2 ∧
    ((read_register c5Out1 .ModemConfig3).testBit 3 = true ↔
      Int.tdiv 1000
        (Int.tdiv (get_signal_bandwidth c5Out1) (2 ^ get_spreading_factor c5Out1)) > 16) ∧
    ((read_register c5Out2 .ModemConfig3).testBit 3 = true ↔
      Int.tdiv 1000
        (Int.tdiv (get_signal_bandwidth c5Out2) (2 ^ get_spreading_factor c5Out2)) > 16) :=
  ⟨rfl, rfl,
   (c5_ldo_invariant c5State 7 250000 c5Out1 c5Out2).1 rfl,
   (c5_ldo_invariant c5State 7 250000 c5Out1 c5Out2).2 rfl⟩

/-- C6: the bandwidth encode table maps exactly the nine named values to
codes 0–8 and everything else to code 9; the decode table maps codes 0–8
back to the nine values, code 9 to 500000 and every code ≥ 10 to −1; and
setting one of the nine bandwidths and reading it back (when the setter
does not panic in its LDO recomputation) returns the value that was set. -/
theorem c6_bandwidth_tables (s : LoRaState) (sbw : Int) (s' : LoRaState) :
    (bandwidth_code 7800 = 0 ∧ bandwidth_code 10400 = 1 ∧
     bandwidth_code 15600 = 2 ∧ bandwidth_code 20800 = 3 ∧
     bandwidth_code 31250 = 4 ∧ bandwidth_code 41700 = 5 ∧
     bandwidth_code 62500 = 6 ∧ bandwidth_code 125000 = 7 ∧
     bandwidth_code 250000 = 8) ∧
    (sbw ∉ ([7800, 10400, 15600, 20800, 31250, 41700, 62500, 125000,
             250000] : List Int) → bandwidth_code sbw = 9) ∧
    (bandwidth_value 0 = 7800 ∧ bandwidth_value 1 = 10400 ∧
     bandwidth_value 2 = 15600 ∧ bandwidth_value 3 = 20800 ∧
     bandwidth_value 4 = 31250 ∧ bandwidth_value 5 = 41700 ∧
     bandwidth_value 6 = 62500 ∧ bandwidth_value 7 = 125000 ∧
     bandwidth_value 8 = 250000 ∧ bandwidth_value 9 = 500000) ∧
    (∀ c : Nat, bandwidth_value (c + 10) = -1) ∧
    (sbw ∈ ([7800, 10400, 15600, 20800, 31250, 41700, 62500, 125000,
             250000] : List Int) →
      set_signal_bandwidth s sbw = some s' →
      get_signal_bandwidth s' = sbw) := by
  refine ⟨by decide, ?_, by decide, fun c => rfl, ?_⟩
  · intro hmem
    unfold bandwidth_code
    split_ifs with h1 h2 h3 h4 h5 h6 h7 h8 h9 <;> simp_all
  · intro hmem hset
    simp only [set_signal_bandwidth] at hset
    obtain ⟨hmc1, -, -⟩ := set_ldo_flag_some _ _ hset
    have hcode : bandwidth_code sbw ≤ 9 := bandwidth_code_le_nine sbw
    have hor :
        read_register (write_register s .ModemConfig1
            ((read_register s .ModemConfig1 &&& 0x0f) |||
              (bandwidth_code sbw <<< 4))) .ModemConfig1
          = (read_register s .ModemConfig1 &&& 0x0f) |||
              (bandwidth_code sbw <<< 4) := by
      rw [read_write_register_self]
      refine Nat.mod_eq_of_lt (Nat.or_lt_two_pow (n := 8) ?_ ?_)
      · exact and_lt_256 _ (read_register_lt s .ModemConfig1)
      · rw [Nat.shiftLeft_eq]
        omega
    have hshift :
        ((read_register s .ModemConfig1 &&& 0x0f) |||
            (bandwidth_code sbw <<< 4)) >>> 4 = bandwidth_code sbw := by
      have hm : read_register s .ModemConfig1 &&& 0x0f < 16 :=
        lt_of_le_of_lt Nat.and_le_right (by norm_num)
      apply Nat.eq_of_testBit_eq
      intro i
      rw [Nat.testBit_shiftRight, Nat.testBit_or, Nat.testBit_shiftLeft]
      have hlow : (read_register s .ModemConfig1 &&& 0x0f).testBit (4 + i) = false :=
        Nat.testBit_eq_false_of_lt
          (lt_of_lt_of_le hm
            (Nat.pow_le_pow_right (by norm_num) (by omega) : (2:Nat)^4 ≤ 2^(4+i)))
      rw [hlow]
      simp
    unfold get_signal_bandwidth
    rw [hmc1, hor, hshift]
    fin_cases hmem <;> rfl

/-- A configuration state for the bandwidth round trip (SF7 cached in
ModemConfig2, so the LDO divisor is non-zero for every named bandwidth). -/
def c6State : LoRaState :=
  { regs := fun a => if a = 0x1d then 0x72 else if a = 0x1e then 0x74 else 0
    explicit_header := true
    mode := .Stdby
    writes := [] }

/-- The state produced by `set_signal_bandwidth c6State 41700`. -/
def c6Out : LoRaState := (set_signal_bandwidth c6State 41700).getD c6State

theorem c6_witness :
    bandwidth_code 999 = 9 ∧
    set_signal_bandwidth c6State 41700 = some c6Out ∧
    get_signal_bandwidth c6Out = 41700 :=
  ⟨(c6_bandwidth_tables c6State 999 c6Out).2.1 (by decide), rfl,
   (c6_bandwidth_tables c6State 41700 c6Out).2.2.2.2 (by decide) rfl⟩

/-- The all-zero driver state. -/
def c7State : LoRaState :=
  { regs := fun _ => 0
    explicit_header := true
    mode := .Stdby
    writes := [] }

/-- C7: the claim's piecewise trim formula holds at its stated anchors
ocp(45), ocp(120), ocp(121) and ocp(241), but not for every input: the
branch `ma <= 240` computes `ma + 30` in u8, which overflows for
mA ∈ 226..240 (and `ma - 45` underflows for mA < 45).  In release builds
the addition wraps: at mA = 240 the code computes trim = (270 mod 256)/10
= 1 and writes 0x21, where the claim's formula (240+30)/10 = 27 demands
0x3B; in debug builds the same input panics. -/
theorem c7_set_ocp_u8_overflow :
    (set_ocp c7State 240).writes = [(Register.Ocp.addr, 0x21)] ∧
    (0x20 ||| (0x1F &&& ((240 + 30) / 10)) : Nat) = 0x3B ∧
    (set_ocp c7State 240).writes ≠ [(Register.Ocp.addr, 0x3B)] ∧
    (set_ocp c7State 45).writes = [(Register.Ocp.addr, 0x20 ||| ((45 - 45) / 5))] ∧
    (set_ocp c7State 120).writes = [(Register.Ocp.addr, 0x20 ||| ((120 - 45) / 5))] ∧
    (set_ocp c7State 121).writes = [(Register.Ocp.addr, 0x20 ||| ((121 + 30) / 10))] ∧
    (set_ocp c7State 241).writes = [(Register.Ocp.addr, 0x20 ||| 27)] := by
  refine ⟨rfl, rfl, by decide, rfl, rfl, rfl, rfl⟩

/-- C8: on the simulated bus, a transmit from endpoint `a` appends the
length-capped payload to every other endpoint's queue and never to `a`'s
own; `read_packet` at `b` is a non-blocking pop of `b`'s own queue (empty
queue yields `none`, not an error); and two successive transmits from `a`
land on `b`'s queue in the order sent. -/
theorem c8_mock_bus_semantics (bus : MockBus) (a b : Nat)
    (p p1 p2 : List Nat) (ha : a < bus.num) (hb : b < bus.num) (hba : b ≠ a) :
    ((bus.transmit_payload a p).queues b = bus.queues b ++ [p.take 255]) ∧
    ((bus.transmit_payload a p).queues a = bus.queues a) ∧
    (bus.queues b = [] → bus.read_packet b = (none, bus)) ∧
    (∀ x xs, bus.queues b = x :: xs →
      (bus.read_packet b).1 = some x ∧ (bus.read_packet b).2.queues b = xs) ∧
    (((bus.transmit_payload a p1).transmit_payload a p2).queues b
        = bus.queues b ++ [p1.take 255, p2.take 255]) := by
  refine ⟨?_, ?_, ?_, ?_, ?_⟩
  · simp [MockBus.transmit_payload, hb, hba]
  · simp [MockBus.transmit_payload]
  · intro h
    simp [MockBus.read_packet, h]
  · intro x xs h
    simp [MockBus.read_packet, h]
  · simp [MockBus.transmit_payload, hb, hba]

/-- A two-endpoint bus with empty queues. -/
def c8Bus : MockBus := { num := 2, queues := fun _ => [] }

/-- A two-endpoint bus with one packet pending at endpoint 1. -/
def c8Bus2 : MockBus :=
  { num := 2, queues := fun j => if j = 1 then [[9]] else [] }

theorem c8_witness :
    (c8Bus.transmit_payload 0 [5, 6]).queues 1 = c8Bus.queues 1 ++ [[5, 6].take 255] ∧
    (c8Bus.transmit_payload 0 [5, 6]).queues 0 = c8Bus.queues 0 ∧
    c8Bus.read_packet 1 = (none, c8Bus) ∧
    ((c8Bus.transmit_payload 0 [7]).transmit_payload 0 [8]).queues 1
        = c8Bus.queues 1 ++ [[7].take 255, [8].take 255] ∧
    (c8Bus2.read_packet 1).1 = some [9] ∧
    (c8Bus2.read_packet 1).2.queues 1 = [] := by
  have h := c8_mock_bus_semantics c8Bus 0 1 [5, 6] [7] [8]
    (by decide) (by decide) (by decide)
  have h2 := c8_mock_bus_semantics c8Bus2 0 1 [] [] []
    (by decide) (by decide) (by decide)
  exact ⟨h.1, h.2.1, h.2.2.1 rfl, h.2.2.2.2,
    (h2.2.2.2.1 [9] [] rfl).1, (h2.2.2.2.1 [9] [] rfl).2⟩

/-! ### Facts for the timeout loops (C9) -/

theorem read_set_mode_irq (s : LoRaState) (m : RadioMode) :
    read_register (set_mode s m) .IrqFlags = read_register s .IrqFlags :=
  read_set_mode_preserve s m .IrqFlags (by decide) (by decide)

/-- With the packet-ready bit clear, `read_packet` returns no packet and
only performs the RxContinuous transition. -/
theorem read_packet_none (s : LoRaState)
    (h : (read_register s .IrqFlags).testBit 6 = false) :
    read_packet s = (none, set_mode s .RxContinuous) := by
  have h' : (read_register (set_mode s .RxContinuous) .IrqFlags).testBit 6 = false := by
    rw [read_set_mode_irq]; exact h
  simp [read_packet, check_irq, h']

/-- If no packet ever arrives, the driver polling loop runs down its
budget, invoking the delay once per remaining count. -/
theorem read_packet_timeout_aux_no_packet (k : Nat) :
    ∀ (s : LoRaState) (timeout count : Int) (delays : Nat),
      (timeout - count).toNat = k →
      (read_register s .IrqFlags).testBit 6 = false →
      read_packet_timeout_aux s timeout count delays
        = (none, set_mode s .RxContinuous, delays + k) := by
  induction k with
  | zero =>
    intro s timeout count delays hk hbit
    have hstop : count ≥ timeout := by omega
    rw [read_packet_timeout_aux, read_packet_none s hbit]
    simp [hstop]
  | succ k ih =>
    intro s timeout count delays hk hbit
    have hgo : ¬ count ≥ timeout := by omega
    rw [read_packet_timeout_aux, read_packet_none s hbit]
    simp only [hgo, if_false]
    have hbit' :
        (read_register (set_mode s .RxContinuous) .IrqFlags).testBit 6 = false := by
      rw [read_set_mode_irq]; exact hbit
    rw [ih (set_mode s .RxContinuous) timeout (count + 1) (delays + 1)
      (by omega) hbit']
    rw [set_mode_self _ _ (set_mode_mode s .RxContinuous).symm]
    have : delays + 1 + k = delays + (k + 1) := by omega
    rw [this]

theorem mock_read_packet_empty (bus : MockBus) (b : Nat)
    (h : bus.queues b = []) : bus.read_packet b = (none, bus) := by
  simp [MockBus.read_packet, h]

/-- If no packet ever arrives, the mock polling loop runs down its budget,
invoking the delay once per remaining count. -/
theorem mock_read_packet_timeout_aux_no_packet (k : Nat) :
    ∀ (bus : MockBus) (b : Nat) (timeout count : Int) (delays : Nat),
      (timeout - count).toNat = k →
      bus.queues b = [] →
      bus.read_packet_timeout_aux b timeout count delays = (none, bus, delays + k) := by
  induction k with
  | zero =>
    intro bus b timeout count delays hk hq
    have hstop : count ≥ timeout := by omega
    rw [MockBus.read_packet_timeout_aux, mock_read_packet_empty bus b hq]
    simp [hstop]
  | succ k ih =>
    intro bus b timeout count delays hk hq
    have hgo : ¬ count ≥ timeout := by omega
    rw [MockBus.read_packet_timeout_aux, mock_read_packet_empty bus b hq]
    simp only [hgo, if_false]
    rw [ih bus b timeout (count + 1) (delays + 1) (by omega) hq]
    have : delays + 1 + k = delays + (k + 1) := by omega
    rw [this]

/-- C9: with no packet ever arriving (packet-ready bit never set for the
driver; own queue empty for the simulated radio), `read_packet_timeout`
with timeout N ≥ 0 returns success-with-no-packet after invoking the 1 ms
delay exactly N times, in both implementations. -/
theorem c9_timeout_exact_delays (N : Nat) (s : LoRaState) (bus : MockBus)
    (b : Nat) (hs : (read_register s .IrqFlags).testBit 6 = false)
    (hq : bus.queues b = []) :
    ((read_packet_timeout s (N : Int)).1 = none ∧
     (read_packet_timeout s (N : Int)).2.2 = N) ∧
    ((bus.read_packet_timeout b (N : Int)).1 = none ∧
     (bus.read_packet_timeout b (N : Int)).2.2 = N) := by
  have hd := read_packet_timeout_aux_no_packet N s (N : Int) 0 0 (by omega) hs
  have hm := mock_read_packet_timeout_aux_no_packet N bus b (N : Int) 0 0
    (by omega) hq
  unfold read_packet_timeout MockBus.read_packet_timeout
  rw [hd, hm]
  simp

/-- A state with all IRQ flags clear, cached in Standby. -/
def c9State : LoRaState :=
  { regs := fun _ => 0
    explicit_header := true
    mode := .Stdby
    writes := [] }

/-- A two-endpoint bus with empty queues, for the timeout witness. -/
def c9Bus : MockBus := { num := 2, queues := fun _ => [] }

theorem c9_witness :
    ((read_packet_timeout c9State ((3 : Nat) : Int)).1 = none ∧
     (read_packet_timeout c9State ((3 : Nat) : Int)).2.2 = 3) ∧
    ((c9Bus.read_packet_timeout 1 ((3 : Nat) : Int)).1 = none ∧
     (c9Bus.read_packet_timeout 1 ((3 : Nat) : Int)).2.2 = 3) :=
  c9_timeout_exact_delays 3 c9State c9Bus 1 (by decide) rfl

end SX127x
